import Mathlib

/-!
# Verification of the queue-and-playback state machine of `playerStore.js`

This file gives a shallow embedding, in Lean 4, of the Zustand player store
of the mediacore frontend (`src/store/playerStore.js`): the state record, and
the transition functions `setCurrentTrack`, `setQueue`, `playTrack`,
`playNext`, `playPrevious`, `setVolume`, `toggleMute`, `closeMiniPlayer`,
`addToHistory` and `clearHistory`.  The definitions are translated directly
from the JavaScript source; theorems about them settle the specification
claims.

Modelling conventions:
* A JavaScript track object is modelled by `Track` with its identity field
  `id` (an opaque string) and its `type` field (the string tag consulted by
  `setCurrentTrack`); the other metadata fields play no role in any store
  transition and are omitted.
* `null`/`undefined` values of `currentTrack` are modelled with `Option`.
* Array indexing `queue[i]` (which yields `undefined` out of range) is
  modelled with `List.getElem?`; the JavaScript truthiness test
  `queue[startIndex] || null` collapses to the same `Option` value because
  track objects are always truthy.
* The float fields `currentTime`, `duration` and `volume` carry exact
  comparisons only (`> 3`, `=== 0`) and are never the target of rounding
  arithmetic in the store, so they are modelled by rationals.
* `new Date().toISOString()` in `addToHistory` is an external input; the
  transitions that record history take the timestamp `now` as an explicit
  parameter.  Likewise `Math.floor(Math.random() * queue.length)` in
  `playNext` is an external input `rand`.
-/

namespace PlayerStore

/-- The repeat mode strings `'off' | 'all' | 'one'` of the store. -/
inductive RepeatMode where
  | off
  | all
  | one
deriving DecidableEq, Repr

/-- A playable media item, as far as the store inspects it: the opaque
string identity `id` used for history dedup and queue lookup, and the
`type` tag compared against the string `"video"`. -/
structure Track where
  id : String
  type : String
deriving DecidableEq, Repr

/-- A history record: the track snapshot spread together with the
`playedAt` insertion timestamp. -/
structure HistEntry where
  track : Track
  playedAt : Nat
deriving DecidableEq, Repr

/-- The player store state: the fields of the Zustand store that take part
in the transitions under verification. -/
structure State where
  currentTrack : Option Track
  queue : List Track
  queueIndex : Nat
  isPlaying : Bool
  isLoading : Bool
  duration : ℚ
  currentTime : ℚ
  volume : ℚ
  isMuted : Bool
  isShuffled : Bool
  repeatMode : RepeatMode
  isVideoMode : Bool
  isMiniPlayerVisible : Bool
  history : List HistEntry
deriving DecidableEq, Repr

/-- The initial store state (the literal field initialisers of the store). -/
def initialState : State where
  currentTrack := none
  queue := []
  queueIndex := 0
  isPlaying := false
  isLoading := false
  duration := 0
  currentTime := 0
  volume := 8 / 10
  isMuted := false
  isShuffled := false
  repeatMode := RepeatMode.off
  isVideoMode := true
  isMiniPlayerVisible := false
  history := []

/-- The pure history update of `addToHistory`: drop every entry carrying
the same track id, prepend the fresh record, truncate to 100 entries
(`[...].slice(0, 100)`). -/
def histAdd (track : Track) (now : Nat) (h : List HistEntry) : List HistEntry :=
  (HistEntry.mk track now :: h.filter (fun e => e.track.id ≠ track.id)).take 100

/-- `addToHistory(track)`; `now` stands for `new Date().toISOString()`. -/
def addToHistory (track : Track) (now : Nat) (s : State) : State :=
  { s with history := histAdd track now s.history }

/-- `clearHistory()`. -/
def clearHistory (s : State) : State :=
  { s with history := [] }

/-- `setCurrentTrack(track)`: update the track, mini-player visibility,
loading flag, reset times, derive video mode from `track?.type === 'video'`,
then record history when the track is non-null. -/
def setCurrentTrack (track : Option Track) (now : Nat) (s : State) : State :=
  let s1 : State :=
    { s with
      currentTrack := track
      isMiniPlayerVisible := track.isSome
      isLoading := true
      currentTime := 0
      duration := 0
      isVideoMode := track.elim false (fun t => t.type == "video") }
  match track with
  | some t => addToHistory t now s1
  | none => s1

/-- `setQueue(queue, startIndex = 0)`. -/
def setQueue (queue : List Track) (startIndex : Nat) (s : State) : State :=
  { s with
    queue := queue
    queueIndex := startIndex
    currentTrack := queue[startIndex]?
    isMiniPlayerVisible := decide (0 < queue.length) }

/-- `playTrack(track, queue = null)`: with an explicit queue, adopt it and
locate the track by id (`findIndex`, falling back to index 0); without one,
only replace the current track.  Either way set `isPlaying`, show the mini
player, and record history. -/
def playTrack (track : Track) (queue : Option (List Track)) (now : Nat)
    (s : State) : State :=
  let s1 : State :=
    match queue with
    | some q =>
        let idx := q.findIdx (fun t => t.id == track.id)
        { s with
          queue := q
          queueIndex := if idx < q.length then idx else 0
          currentTrack := some track
          isPlaying := true
          isMiniPlayerVisible := true }
    | none =>
        { s with
          currentTrack := some track
          isPlaying := true
          isMiniPlayerVisible := true }
  addToHistory track now s1

/-- `togglePlay()`. -/
def togglePlay (s : State) : State :=
  { s with isPlaying := !s.isPlaying }

/-- `play()`. -/
def play (s : State) : State :=
  { s with isPlaying := true }

/-- `pause()`. -/
def pause (s : State) : State :=
  { s with isPlaying := false }

/-- The next-index selection of `playNext`: repeat-one keeps the cursor,
shuffle takes the random draw `rand`, otherwise advance by one, wrapping to
0 under repeat-all and falling back to the current index at the end of the
queue. -/
def nextIndexOf (s : State) (rand : Nat) : Nat :=
  if s.repeatMode = RepeatMode.one then s.queueIndex
  else if s.isShuffled then rand
  else if s.queueIndex + 1 ≥ s.queue.length then
    (if s.repeatMode = RepeatMode.all then 0 else s.queueIndex)
  else s.queueIndex + 1

/-- `playNext()`: no-op on an empty queue; otherwise select the next index,
and when a track exists there, move the cursor, play it and record history.
`rand` stands for `Math.floor(Math.random() * queue.length)`. -/
def playNext (rand now : Nat) (s : State) : State :=
  if s.queue.length = 0 then s
  else
    match s.queue[nextIndexOf s rand]? with
    | some nextTrack =>
        addToHistory nextTrack now
          { s with
            queueIndex := nextIndexOf s rand
            currentTrack := some nextTrack
            isPlaying := true }
    | none => s

/-- The previous-index selection of `playPrevious`: step the cursor back,
wrapping to the last index when at position 0. -/
def prevIndexOf (s : State) : Nat :=
  if s.queueIndex > 0 then s.queueIndex - 1 else s.queue.length - 1

/-- `playPrevious()`: no-op on an empty queue; more than 3 seconds into the
track, just reset `currentTime`; otherwise step the cursor back with
wraparound and play the track found there. -/
def playPrevious (s : State) : State :=
  if s.queue.length = 0 then s
  else if s.currentTime > 3 then { s with currentTime := 0 }
  else
    match s.queue[prevIndexOf s]? with
    | some prevTrack =>
        { s with
          queueIndex := prevIndexOf s
          currentTrack := some prevTrack
          isPlaying := true }
    | none => s

/-- `setVolume(volume)`: store the level and derive `isMuted = (volume === 0)`. -/
def setVolume (volume : ℚ) (s : State) : State :=
  { s with volume := volume, isMuted := decide (volume = 0) }

/-- `toggleMute()`: flip `isMuted` only. -/
def toggleMute (s : State) : State :=
  { s with isMuted := !s.isMuted }

/-- `toggleShuffle()`. -/
def toggleShuffle (s : State) : State :=
  { s with isShuffled := !s.isShuffled }

/-- `closeMiniPlayer()`: clear the track, the queue and the cursor, stop
playback, hide the mini player. -/
def closeMiniPlayer (s : State) : State :=
  { s with
    currentTrack := none
    isPlaying := false
    isMiniPlayerVisible := false
    queue := []
    queueIndex := 0 }

/-- The queue-cursor invariant of the spec: the current track is the queue
entry under the cursor whenever the queue is non-empty, and the track is
null with the cursor at 0 whenever the queue is empty. -/
def CursorInv (s : State) : Prop :=
  (s.queue ≠ [] → s.currentTrack = s.queue[s.queueIndex]?) ∧
  (s.queue = [] → s.currentTrack = none ∧ s.queueIndex = 0)

instance (s : State) : Decidable (CursorInv s) := by
  unfold CursorInv; infer_instance

/-! ## Concrete fixtures used by counterexamples and witnesses -/

/-- A sample audio track. -/
def trackA : Track := ⟨"a", "audio"⟩

/-- A second sample track, with a distinct id. -/
def trackB : Track := ⟨"b", "video"⟩

/-- A state more than 3 seconds into a single-track queue, not playing. -/
def restartState : State :=
  { initialState with
    queue := [trackA]
    queueIndex := 0
    currentTrack := some trackA
    currentTime := 4
    isPlaying := false }

/-- A state with nonzero playback position and duration. -/
def timedState : State :=
  { initialState with currentTime := 5, duration := 7 }

/-- A two-track queue with the cursor at position 0. -/
def wrapState : State :=
  { initialState with
    queue := [trackA, trackB]
    queueIndex := 0
    currentTrack := some trackA }

/-! ## Theorems settling the claims -/

/-- C3, counterexample: with a non-empty queue and `currentTime > 3`,
`playPrevious()` does not set `isPlaying = true` — starting paused, the
player stays paused after the restart. -/
theorem playPrevious_restart_not_playing :
    restartState.queue ≠ [] ∧ restartState.currentTime > 3 ∧
    (playPrevious restartState).isPlaying ≠ true := by
  decide

/-- C3 (amended): with a non-empty queue and `currentTime > 3`,
`playPrevious()` resets `currentTime` to 0 and leaves every other field —
`queueIndex`, `currentTrack` and also `isPlaying` — unchanged. -/
theorem playPrevious_restart_spec (s : State)
    (hq : s.queue ≠ []) (ht : s.currentTime > 3) :
    playPrevious s = { s with currentTime := 0 } := by
  have hlen : s.queue.length ≠ 0 := by
    simpa [List.length_eq_zero] using hq
  simp [playPrevious, hlen, ht]

/-- C3, witness for the amended theorem at a concrete state. -/
theorem playPrevious_restart_spec_witness :
    restartState.queue ≠ [] ∧ restartState.currentTime > 3 ∧
    playPrevious restartState = { restartState with currentTime := 0 } :=
  ⟨by decide, by decide,
    playPrevious_restart_spec restartState (by decide) (by decide)⟩

/-- C4, counterexample: `setQueue` leaves `currentTime` and `duration`
untouched, so from a state with `currentTime = 5` and `duration = 7` they
are not reset to 0 as the claim states. -/
theorem setQueue_no_time_reset :
    (setQueue [trackA] 0 timedState).currentTime ≠ 0 ∧
    (setQueue [trackA] 0 timedState).duration ≠ 0 := by
  decide

/-- C4 (amended): for an in-bounds `startIndex`, `setQueue(items, startIndex)`
replaces the queue, sets the cursor and `currentTrack = items[startIndex]`,
and leaves `currentTime`, `duration` and `isPlaying` unchanged (it does not
reset the playback position). -/
theorem setQueue_spec (items : List Track) (i : Nat) (s : State)
    (hi : i < items.length) :
    (setQueue items i s).queue = items ∧
    (setQueue items i s).queueIndex = i ∧
    (setQueue items i s).currentTrack = some items[i] ∧
    (setQueue items i s).currentTime = s.currentTime ∧
    (setQueue items i s).duration = s.duration ∧
    (setQueue items i s).isPlaying = s.isPlaying := by
  simp [setQueue, List.getElem?_eq_getElem hi]

/-- C4, witness for the amended theorem at a concrete input. -/
theorem setQueue_spec_witness :
    0 < ([trackA, trackB] : List Track).length ∧
    ((setQueue [trackA, trackB] 0 timedState).queue = [trackA, trackB] ∧
     (setQueue [trackA, trackB] 0 timedState).queueIndex = 0 ∧
     (setQueue [trackA, trackB] 0 timedState).currentTrack =
       some ([trackA, trackB] : List Track)[0] ∧
     (setQueue [trackA, trackB] 0 timedState).currentTime = timedState.currentTime ∧
     (setQueue [trackA, trackB] 0 timedState).duration = timedState.duration ∧
     (setQueue [trackA, trackB] 0 timedState).isPlaying = timedState.isPlaying) :=
  ⟨by decide, setQueue_spec [trackA, trackB] 0 timedState (by decide)⟩

/-- C5 (confirmed): with a non-empty queue, `currentTime ≤ 3` and the
cursor at 0, `playPrevious()` wraps the cursor to the last index
`queue.length - 1` (no repeat mode enters the decision), makes that entry
the current track, and sets `isPlaying = true`. -/
theorem playPrevious_wrap_spec (s : State)
    (hq : s.queue ≠ []) (ht : s.currentTime ≤ 3) (h0 : s.queueIndex = 0) :
    (playPrevious s).queueIndex = s.queue.length - 1 ∧
    (playPrevious s).currentTrack = s.queue[s.queue.length - 1]? ∧
    (playPrevious s).isPlaying = true := by
  have hlen : 0 < s.queue.length := List.length_pos.mpr hq
  have hlast : s.queue.length - 1 < s.queue.length := by omega
  simp [playPrevious, prevIndexOf, hlen.ne', not_lt.mpr ht, h0,
    List.getElem?_eq_getElem hlast]

/-- C5, witness at a concrete two-track state. -/
theorem playPrevious_wrap_spec_witness :
    wrapState.queue ≠ [] ∧ wrapState.currentTime ≤ 3 ∧ wrapState.queueIndex = 0 ∧
    ((playPrevious wrapState).queueIndex = wrapState.queue.length - 1 ∧
     (playPrevious wrapState).currentTrack = wrapState.queue[wrapState.queue.length - 1]? ∧
     (playPrevious wrapState).isPlaying = true) :=
  ⟨by decide, by decide, by decide,
    playPrevious_wrap_spec wrapState (by decide) (by decide) (by decide)⟩

/-- C8 (confirmed): `setVolume(v)` stores `v` and derives
`isMuted = (v == 0)`; `toggleMute()` flips `isMuted` without touching the
stored volume, so two applications restore the entire state — in
particular the exact pre-mute volume. -/
theorem volume_mute_roundtrip (v : ℚ) (s : State) :
    ((setVolume v s).isMuted = true ↔ v = 0) ∧
    (setVolume v s).volume = v ∧
    (toggleMute s).isMuted = !s.isMuted ∧
    (toggleMute s).volume = s.volume ∧
    toggleMute (toggleMute s) = s := by
  cases s
  simp [setVolume, toggleMute]

/-- C9 (confirmed): the transitions are total functions (they are defined
for every state, index and argument); `playNext()` and `playPrevious()` on
an empty queue return the state unchanged, and `setQueue` with an
out-of-bounds start index yields a null `currentTrack` instead of
failing. -/
theorem operations_total_noops (s : State) (rand now : Nat)
    (items : List Track) (i : Nat)
    (hq : s.queue = []) (hi : items.length ≤ i) :
    playNext rand now s = s ∧
    playPrevious s = s ∧
    (setQueue items i s).currentTrack = none := by
  have hlen : s.queue.length = 0 := by simp [hq]
  refine ⟨?_, ?_, ?_⟩
  · simp [playNext, hlen]
  · simp [playPrevious, hlen]
  · simp [setQueue, List.getElem?_eq_none hi]

/-- C9, witness: the empty initial state and an out-of-range index. -/
theorem operations_total_noops_witness :
    initialState.queue = [] ∧ ([trackA, trackB] : List Track).length ≤ 5 ∧
    (playNext 0 0 initialState = initialState ∧
     playPrevious initialState = initialState ∧
     (setQueue [trackA, trackB] 5 initialState).currentTrack = none) :=
  ⟨by decide, by decide,
    operations_total_noops initialState 0 0 [trackA, trackB] 5 (by decide) (by decide)⟩

/-- C10 (confirmed): `setCurrentTrack(t)` resets `currentTime` and
`duration` to 0, sets `isLoading`, shows the mini player exactly when the
track is non-null, enters video mode exactly when the track type is
`video`, records the track in history when non-null, and leaves the queue
and its cursor unchanged. -/
theorem setCurrentTrack_spec (t : Option Track) (now : Nat) (s : State) :
    (setCurrentTrack t now s).currentTime = 0 ∧
    (setCurrentTrack t now s).duration = 0 ∧
    (setCurrentTrack t now s).isLoading = true ∧
    (setCurrentTrack t now s).currentTrack = t ∧
    (setCurrentTrack t now s).isMiniPlayerVisible = t.isSome ∧
    ((setCurrentTrack t now s).isVideoMode = true ↔
      t.elim False (fun u => u.type = "video")) ∧
    (setCurrentTrack t now s).queue = s.queue ∧
    (setCurrentTrack t now s).queueIndex = s.queueIndex ∧
    (setCurrentTrack t now s).history =
      t.elim s.history (fun u => histAdd u now s.history) := by
  cases t <;> simp [setCurrentTrack, addToHistory]

/-- Modelled from the spec: the next-index priority rule in the sequential
(shuffle-off) case — repeat-one keeps the cursor; otherwise advance by one;
on overflow wrap to 0 under repeat-all, else stay at the last index. -/
def specNextIndexSeq (queueLen queueIndex : Nat) (mode : RepeatMode) : Nat :=
  if mode = RepeatMode.one then queueIndex
  else if queueIndex + 1 < queueLen then queueIndex + 1
  else if mode = RepeatMode.all then 0 else queueLen - 1

/-- C1 (confirmed): for a non-empty queue, shuffle off, and an in-bounds
cursor, `playNext()` moves the cursor to exactly the index the spec's
priority rule selects, makes the queue entry there the current track, sets
`isPlaying = true`, and prepends that track to history. -/
theorem playNext_seq_spec (s : State) (rand now : Nat)
    (hq : s.queue ≠ []) (hsh : s.isShuffled = false)
    (hix : s.queueIndex < s.queue.length) :
    (playNext rand now s).queueIndex =
      specNextIndexSeq s.queue.length s.queueIndex s.repeatMode ∧
    (s.queue[specNextIndexSeq s.queue.length s.queueIndex s.repeatMode]?).isSome ∧
    (playNext rand now s).currentTrack =
      s.queue[specNextIndexSeq s.queue.length s.queueIndex s.repeatMode]? ∧
    (playNext rand now s).isPlaying = true ∧
    (playNext rand now s).history =
      (s.queue[specNextIndexSeq s.queue.length s.queueIndex s.repeatMode]?).elim
        s.history (fun t => histAdd t now s.history) := by
  have hlen : s.queue.length ≠ 0 := by simpa [List.length_eq_zero] using hq
  have hcode : nextIndexOf s rand = specNextIndexSeq s.queue.length s.queueIndex s.repeatMode := by
    unfold nextIndexOf specNextIndexSeq
    by_cases h1 : s.queueIndex + 1 < s.queue.length
    · have h2 : ¬ s.queueIndex + 1 ≥ s.queue.length := by omega
      rcases s.repeatMode with _ | _ | _ <;> simp [hsh, h1, h2]
    · have h2 : s.queueIndex + 1 ≥ s.queue.length := by omega
      have h3 : s.queueIndex = s.queue.length - 1 := by omega
      have h4 : s.queue.length - 1 + 1 = s.queue.length := by omega
      rcases s.repeatMode with _ | _ | _ <;> simp [hsh, h1, h2, h3, h4]
  have hspec : specNextIndexSeq s.queue.length s.queueIndex s.repeatMode < s.queue.length := by
    unfold specNextIndexSeq
    rcases s.repeatMode with _ | _ | _ <;>
      by_cases h1 : s.queueIndex + 1 < s.queue.length <;> simp [h1] <;> omega
  have hget : s.queue[specNextIndexSeq s.queue.length s.queueIndex s.repeatMode]? =
      some s.queue[specNextIndexSeq s.queue.length s.queueIndex s.repeatMode] :=
    List.getElem?_eq_getElem hspec
  unfold playNext
  rw [if_neg hlen, hcode, hget]
  simp [addToHistory, hget]

/-- C1, witness: queue `[A, B]`, cursor 0, repeat off, shuffle off. -/
theorem playNext_seq_spec_witness :
    wrapState.queue ≠ [] ∧ wrapState.isShuffled = false ∧
    wrapState.queueIndex < wrapState.queue.length ∧
    ((playNext 0 7 wrapState).queueIndex =
       specNextIndexSeq wrapState.queue.length wrapState.queueIndex wrapState.repeatMode ∧
     (wrapState.queue[specNextIndexSeq wrapState.queue.length wrapState.queueIndex wrapState.repeatMode]?).isSome ∧
     (playNext 0 7 wrapState).currentTrack =
       wrapState.queue[specNextIndexSeq wrapState.queue.length wrapState.queueIndex wrapState.repeatMode]? ∧
     (playNext 0 7 wrapState).isPlaying = true ∧
     (playNext 0 7 wrapState).history =
       (wrapState.queue[specNextIndexSeq wrapState.queue.length wrapState.queueIndex wrapState.repeatMode]?).elim
         wrapState.history (fun t => histAdd t 7 wrapState.history)) :=
  ⟨by decide, by decide, by decide,
    playNext_seq_spec wrapState 0 7 (by decide) (by decide) (by decide)⟩

/-- A third sample track, absent from all fixture queues. -/
def trackC : Track := ⟨"c", "audio"⟩

/-- A successful `find?` pins down `findIdx`: the found index is in bounds
and holds the found element. -/
theorem find?_findIdx (p : Track → Bool) (q : List Track) (t : Track)
    (h : q.find? p = some t) :
    q.findIdx p < q.length ∧ q[q.findIdx p]? = some t := by
  induction q with
  | nil => simp at h
  | cons a l ih =>
      by_cases hp : p a
      · rw [List.find?_cons_of_pos _ hp] at h
        obtain rfl : a = t := by simpa using h
        simp [List.findIdx_cons, hp]
      · rw [List.find?_cons_of_neg _ hp] at h
        obtain ⟨h1, h2⟩ := ih h
        constructor
        · simp only [List.findIdx_cons, hp, cond_false, List.length_cons]
          omega
        · simp only [List.findIdx_cons, hp, cond_false, List.getElem?_cons_succ]
          exact h2

/-- C2, counterexample: from a state satisfying the queue-cursor invariant,
`playTrack(track)` without an explicit queue replaces `currentTrack` while
leaving the queue and cursor alone, breaking the invariant. -/
theorem cursor_invariant_break :
    CursorInv wrapState ∧ ¬ CursorInv (playTrack trackC none 0 wrapState) := by
  decide

/-- C2 (amended): the queue-cursor invariant is preserved by `setQueue`
whenever the items are non-empty or the start index is 0, by `playTrack`
when an explicit queue is supplied whose first id-match for the track is
the track itself, and unconditionally by `playNext`, `playPrevious` and
`closeMiniPlayer`; `playTrack` without an explicit queue can break it. -/
theorem cursor_invariant_preservation (s : State) (items q : List Track)
    (i rand now : Nat) (t : Track)
    (hs : CursorInv s)
    (hsq : items ≠ [] ∨ i = 0)
    (hfind : q.find? (fun u => u.id == t.id) = some t) :
    CursorInv (setQueue items i s) ∧
    CursorInv (playTrack t (some q) now s) ∧
    CursorInv (playNext rand now s) ∧
    CursorInv (playPrevious s) ∧
    CursorInv (closeMiniPlayer s) := by
  obtain ⟨hidx, hget⟩ := find?_findIdx (fun u => u.id == t.id) q t hfind
  refine ⟨⟨fun _ => rfl, ?_⟩, ⟨?_, ?_⟩, ?_, ?_, ?_⟩
  · intro he
    subst he
    rcases hsq with hne | hi0
    · exact absurd rfl hne
    · subst hi0
      simp [setQueue]
  · intro _
    simp only [playTrack, addToHistory]
    simp [hidx, hget]
  · intro he
    have hq_ne : q ≠ [] := by
      intro hnil
      subst hnil
      simp at hfind
    simp only [playTrack, addToHistory] at he
    exact absurd he hq_ne
  · by_cases h0 : s.queue.length = 0
    · unfold playNext
      rw [if_pos h0]
      exact hs
    · unfold playNext
      rw [if_neg h0]
      cases hget2 : s.queue[nextIndexOf s rand]? with
      | none => exact hs
      | some u =>
          constructor
          · intro _
            simp [addToHistory, hget2]
          · intro he
            simp only [addToHistory] at he
            exact absurd (by simp [he] : s.queue.length = 0) h0
  · by_cases h0 : s.queue.length = 0
    · unfold playPrevious
      rw [if_pos h0]
      exact hs
    · unfold playPrevious
      rw [if_neg h0]
      by_cases h3 : s.currentTime > 3
      · rw [if_pos h3]
        exact hs
      · rw [if_neg h3]
        cases hget3 : s.queue[prevIndexOf s]? with
        | none => exact hs
        | some u =>
            constructor
            · intro _
              simp [hget3]
            · intro he
              refine absurd ?_ h0
              have hq0 : s.queue = [] := by simpa using he
              simp [hq0]
  · exact ⟨fun he => absurd rfl he, fun _ => ⟨rfl, rfl⟩⟩

/-- C2, witness for the amended preservation theorem at concrete inputs. -/
theorem cursor_invariant_preservation_witness :
    CursorInv wrapState ∧ (([trackA] : List Track) ≠ [] ∨ (0 : Nat) = 0) ∧
    ([trackB] : List Track).find? (fun u => u.id == trackB.id) = some trackB ∧
    (CursorInv (setQueue [trackA] 0 wrapState) ∧
     CursorInv (playTrack trackB (some [trackB]) 5 wrapState) ∧
     CursorInv (playNext 1 5 wrapState) ∧
     CursorInv (playPrevious wrapState) ∧
     CursorInv (closeMiniPlayer wrapState)) :=
  ⟨by decide, by decide, by decide,
    cursor_invariant_preservation wrapState [trackA] [trackB] 0 1 5 trackB
      (by decide) (by decide) (by decide)⟩

/-! ## History lemmas -/

/-- `histAdd` keeps the track ids of the history duplicate-free. -/
theorem histAdd_nodup (t : Track) (now : Nat) (h : List HistEntry)
    (hnd : (h.map (fun e => e.track.id)).Nodup) :
    ((histAdd t now h).map (fun e => e.track.id)).Nodup := by
  unfold histAdd
  rw [List.map_take]
  apply List.Nodup.sublist (List.take_sublist _ _)
  rw [List.map_cons]
  apply List.nodup_cons.mpr
  constructor
  · intro hmem
    obtain ⟨e, he, heq⟩ := List.mem_map.mp hmem
    have hne := List.of_mem_filter he
    simp at hne
    exact hne heq
  · exact List.Nodup.sublist ((List.filter_sublist _).map _) hnd

/-- The freshly recorded entry sits at the front of the history. -/
theorem histAdd_head (t : Track) (now : Nat) (h : List HistEntry) :
    (histAdd t now h).head? = some (HistEntry.mk t now) := by
  unfold histAdd
  rw [show (100 : Nat) = 99 + 1 from rfl, List.take_succ_cons]
  rfl

/-- Replaying the sequence of `addToHistory` calls of the store. -/
def histOfPlays (ps : List (Track × Nat)) : List HistEntry :=
  ps.foldl (fun h p => histAdd p.1 p.2 h) []

/-- Unfolding one more play at the end of a play sequence. -/
theorem histOfPlays_append (ps : List (Track × Nat)) (p : Track × Nat) :
    histOfPlays (ps ++ [p]) = histAdd p.1 p.2 (histOfPlays ps) := by
  simp [histOfPlays, List.foldl_append]

/-- For plays with pairwise-distinct track ids, the history is exactly the
last 100 plays, most recent first. -/
theorem histOfPlays_nodup_eq (ps : List (Track × Nat)) :
    (ps.map (fun p => p.1.id)).Nodup →
    histOfPlays ps = (ps.reverse.map (fun p => HistEntry.mk p.1 p.2)).take 100 := by
  induction ps using List.reverseRecOn with
  | nil => intro _; rfl
  | append_singleton l p ih =>
      intro hnd
      have hmap : ((l ++ [p]).map (fun q => q.1.id)) =
          l.map (fun q => q.1.id) ++ [p.1.id] := by simp
      rw [hmap] at hnd
      have hndl : (l.map (fun q => q.1.id)).Nodup := (List.nodup_append.mp hnd).1
      have hdisj := (List.nodup_append.mp hnd).2.2
      have hnotmem : p.1.id ∉ l.map (fun q => q.1.id) := by
        intro hmem
        exact hdisj hmem (List.mem_singleton_self _)
      rw [histOfPlays_append, ih hndl]
      have hrev : ((l ++ [p]).reverse.map (fun q => HistEntry.mk q.1 q.2)) =
          HistEntry.mk p.1 p.2 :: l.reverse.map (fun q => HistEntry.mk q.1 q.2) := by
        simp
      rw [hrev]
      unfold histAdd
      have hfilter : ((l.reverse.map (fun q => HistEntry.mk q.1 q.2)).take 100).filter
          (fun e => e.track.id ≠ p.1.id) =
          (l.reverse.map (fun q => HistEntry.mk q.1 q.2)).take 100 := by
        apply List.filter_eq_self.mpr
        intro e he
        have he2 : e ∈ l.reverse.map (fun q => HistEntry.mk q.1 q.2) :=
          List.take_subset _ _ he
        obtain ⟨x, hx, rfl⟩ := List.mem_map.mp he2
        have hxid : x.1.id ∈ l.map (fun q => q.1.id) :=
          List.mem_map_of_mem _ (List.mem_reverse.mp hx)
        simp only [ne_eq, decide_not, Bool.not_eq_eq_eq_not, Bool.not_true,
          decide_eq_false_iff_not]
        intro heq
        exact hnotmem (heq ▸ hxid)
      rw [hfilter]
      rw [show (100 : Nat) = 99 + 1 from rfl, List.take_succ_cons,
        List.take_succ_cons, List.take_take]
      norm_num

/-- C6 (confirmed): `addToHistory` keeps the history deduplicated by track
id, puts the just-played track at the front, and caps the length at 100;
two insertions of the same track from an empty history leave exactly one
entry, and a sequence of plays with distinct ids (in particular 150 of
them) retains exactly the most recent 100, most recent first. -/
theorem addToHistory_invariants (s : State) (t : Track) (now n1 n2 : Nat)
    (ps : List (Track × Nat))
    (hnd : (s.history.map (fun e => e.track.id)).Nodup)
    (hps : (ps.map (fun p => p.1.id)).Nodup)
    (hlen : ps.length = 150) :
    ((addToHistory t now s).history.map (fun e => e.track.id)).Nodup ∧
    (addToHistory t now s).history.head? = some (HistEntry.mk t now) ∧
    (addToHistory t now s).history.length ≤ 100 ∧
    (addToHistory t n2 (addToHistory t n1 (clearHistory s))).history =
      [HistEntry.mk t n2] ∧
    histOfPlays ps = (ps.reverse.map (fun p => HistEntry.mk p.1 p.2)).take 100 ∧
    (histOfPlays ps).length = 100 := by
  refine ⟨histAdd_nodup t now s.history hnd, histAdd_head t now s.history, ?_, ?_, ?_, ?_⟩
  · exact List.length_take_le _ _
  · have h1 : histAdd t n1 [] = [HistEntry.mk t n1] := by
      unfold histAdd
      rw [List.filter_nil, List.take_of_length_le (by simp)]
    simp only [addToHistory, clearHistory, h1]
    unfold histAdd
    rw [List.take_of_length_le (by simp)]
    simp
  · exact histOfPlays_nodup_eq ps hps
  · rw [histOfPlays_nodup_eq ps hps, List.length_take, List.length_map,
      List.length_reverse, hlen]
    decide

/-- Distinct sample ids: the string of `n` letters. -/
def idOfNat (n : Nat) : String := String.mk (List.replicate n 'a')

/-- A sample track with id `idOfNat n`. -/
def sampleTrack (n : Nat) : Track := ⟨idOfNat n, "audio"⟩

/-- `count` sample plays with pairwise-distinct track ids. -/
def samplePlays (count : Nat) : List (Track × Nat) :=
  (List.range count).map (fun n => (sampleTrack n, n))

theorem idOfNat_injective : Function.Injective idOfNat := by
  intro m n h
  have hlen : (idOfNat m).length = (idOfNat n).length := by rw [h]
  simpa [idOfNat, String.length] using hlen

theorem samplePlays_ids_nodup : ((samplePlays 150).map (fun p => p.1.id)).Nodup := by
  unfold samplePlays sampleTrack
  rw [List.map_map]
  have hcomp : ((fun p : Track × Nat => p.1.id) ∘
      (fun n : Nat => (Track.mk (idOfNat n) "audio", n))) = fun n => idOfNat n := rfl
  rw [hcomp]
  exact (List.nodup_range 150).map idOfNat_injective

theorem samplePlays_length : (samplePlays 150).length = 150 := by
  simp [samplePlays]

/-- C6, witness: the empty history, a sample track, and 150 distinct plays. -/
theorem addToHistory_invariants_witness :
    (initialState.history.map (fun e => e.track.id)).Nodup ∧
    ((samplePlays 150).map (fun p => p.1.id)).Nodup ∧
    (samplePlays 150).length = 150 ∧
    (((addToHistory trackA 3 initialState).history.map (fun e => e.track.id)).Nodup ∧
     (addToHistory trackA 3 initialState).history.head? = some (HistEntry.mk trackA 3) ∧
     (addToHistory trackA 3 initialState).history.length ≤ 100 ∧
     (addToHistory trackA 2 (addToHistory trackA 1 (clearHistory initialState))).history =
       [HistEntry.mk trackA 2] ∧
     histOfPlays (samplePlays 150) =
       ((samplePlays 150).reverse.map (fun p => HistEntry.mk p.1 p.2)).take 100 ∧
     (histOfPlays (samplePlays 150)).length = 100) :=
  ⟨by decide, samplePlays_ids_nodup, samplePlays_length,
    addToHistory_invariants initialState trackA 3 1 2 (samplePlays 150)
      (by decide) samplePlays_ids_nodup samplePlays_length⟩

/-- A state whose cursor sits at position 1 of a two-track queue, with an
empty history. -/
def prevState : State :=
  { initialState with
    queue := [trackA, trackB]
    queueIndex := 1
    currentTrack := some trackB }

/-- C7, counterexample: `playPrevious()` transitions into the previous
track without recording it — the history stays empty, so the played track
is not the first history entry. -/
theorem playPrevious_no_history :
    (playPrevious prevState).currentTrack = some trackA ∧
    (playPrevious prevState).currentTrack ≠ prevState.currentTrack ∧
    (playPrevious prevState).history.head? = none := by
  decide

/-- C7 (amended): `setCurrentTrack`, `playTrack` (with or without an
explicit queue) and `playNext` record the track they transition into as
the new front of the history; `playPrevious` never touches the history. -/
theorem history_appended_on_play (t : Track) (qopt : Option (List Track))
    (rand now : Nat) (s : State) :
    (setCurrentTrack (some t) now s).history = histAdd t now s.history ∧
    (playTrack t qopt now s).history = histAdd t now s.history ∧
    (playNext rand now s = s ∨
      (playNext rand now s).currentTrack.elim False
        (fun u => (playNext rand now s).history = histAdd u now s.history)) ∧
    (playPrevious s).history = s.history := by
  refine ⟨by simp [setCurrentTrack, addToHistory], ?_, ?_, ?_⟩
  · cases qopt <;> simp [playTrack, addToHistory]
  · by_cases h0 : s.queue.length = 0
    · left
      unfold playNext
      rw [if_pos h0]
    · unfold playNext
      rw [if_neg h0]
      cases hget : s.queue[nextIndexOf s rand]? with
      | none => left; rfl
      | some u =>
          right
          simp [addToHistory]
  · by_cases h0 : s.queue.length = 0
    · unfold playPrevious
      rw [if_pos h0]
    · unfold playPrevious
      rw [if_neg h0]
      by_cases h3 : s.currentTime > 3
      · rw [if_pos h3]
      · rw [if_neg h3]
        cases hget : s.queue[prevIndexOf s]? <;> simp [hget]

end PlayerStore
